import Mathlib

/-!
Verification of the JeuneAfriqueAbo retention-analysis scripts.

The repository contains several pandas scripts that reshape subscription
transactions into a monthly activity table and compute cohort retention:
  * Claude_retention_analysis.py : one journey per customer, month expansion,
    deduplication, cohort retention (global and segmented);
  * gemini/lancer_analyse.py, gemini/analyse_abo_court.py,
    gemini/rapport_final.py : journey segmentation with a frequency-dependent
    churn threshold (35 days when the frequency contains "monthly", else 90),
    month expansion relative to the journey start, revenue normalization,
    date repair;
  * gemini/pipeline_JA.py : an earlier pipeline with a fixed 90-day threshold,
    a month expansion driven by month-start timestamps inside the raw date
    interval, and French frequency labels.

This file gives a shallow embedding of those transforms: dates are explicit
year/month/day records, timestamps are absolute day counts computed by the
standard civil-calendar formula, dataframes are lists of records, and pandas
idioms (groupby, shift, cumsum, drop_duplicates, date_range) are spelled out
as recursive list functions.  Theorems at the end settle the frozen claims.
-/

/-! ## Generic list helpers (pandas idioms) -/

/-- Helper for dedupByKey: keys already emitted are tracked in seen; a row
whose key was seen is dropped, otherwise it is kept and its key recorded. -/
def dedupByKeyAux {α : Type} {κ : Type} [DecidableEq κ] (key : α → κ) (seen : List κ) :
    List α → List α
  | [] => []
  | x :: xs =>
    if key x ∈ seen then dedupByKeyAux key seen xs
    else x :: dedupByKeyAux key (key x :: seen) xs

/-- Drop rows whose key was already seen, keeping the first occurrence of each
key.  This is the semantics of pandas drop_duplicates(subset=key) and, with
the identity key, of Series.unique(). -/
def dedupByKey {α : Type} {κ : Type} [DecidableEq κ] (key : α → κ) (l : List α) :
    List α :=
  dedupByKeyAux key [] l

theorem dedupByKeyAux_sublist {α κ : Type} [DecidableEq κ] (key : α → κ) :
    ∀ (l : List α) (seen : List κ), (dedupByKeyAux key seen l).Sublist l
  | [], _ => by simp [dedupByKeyAux]
  | x :: xs, seen => by
    unfold dedupByKeyAux
    split
    · exact (dedupByKeyAux_sublist key xs seen).cons x
    · exact (dedupByKeyAux_sublist key xs (key x :: seen)).cons₂ x

theorem dedupByKey_sublist {α κ : Type} [DecidableEq κ] (key : α → κ) (l : List α) :
    (dedupByKey key l).Sublist l :=
  dedupByKeyAux_sublist key l []

theorem mem_of_mem_dedupByKey {α κ : Type} [DecidableEq κ] {key : α → κ} {l : List α}
    {a : α} (h : a ∈ dedupByKey key l) : a ∈ l :=
  (dedupByKey_sublist key l).subset h

theorem key_mem_dedupByKeyAux {α κ : Type} [DecidableEq κ] (key : α → κ) :
    ∀ (l : List α) (seen : List κ) (a : α), a ∈ l → ¬ (key a ∈ seen) →
      ∃ b ∈ dedupByKeyAux key seen l, key b = key a
  | [], _, a, ha, _ => absurd ha (List.not_mem_nil a)
  | x :: xs, seen, a, ha, hs => by
    unfold dedupByKeyAux
    split
    · rename_i hx
      rcases List.mem_cons.mp ha with rfl | ha2
      · exact absurd hx hs
      · exact key_mem_dedupByKeyAux key xs seen a ha2 hs
    · rename_i hx
      by_cases hk : key a = key x
      · exact ⟨x, List.mem_cons_self _ _, hk.symm⟩
      · rcases List.mem_cons.mp ha with rfl | ha2
        · exact absurd rfl hk
        · have hs2 : ¬ (key a ∈ key x :: seen) := by
            intro hmem
            rcases List.mem_cons.mp hmem with h | h
            · exact hk h
            · exact hs h
          obtain ⟨b, hb, hkb⟩ := key_mem_dedupByKeyAux key xs (key x :: seen) a ha2 hs2
          exact ⟨b, List.mem_cons_of_mem _ hb, hkb⟩

theorem key_mem_dedupByKey {α κ : Type} [DecidableEq κ] (key : α → κ) (l : List α)
    (a : α) (ha : a ∈ l) : ∃ b ∈ dedupByKey key l, key b = key a :=
  key_mem_dedupByKeyAux key l [] a ha (by simp)

theorem nodup_dedupByKeyAux {α κ : Type} [DecidableEq κ] (key : α → κ) :
    ∀ (l : List α) (seen : List κ),
      ((dedupByKeyAux key seen l).map key).Nodup
      ∧ ∀ b ∈ dedupByKeyAux key seen l, ¬ (key b ∈ seen)
  | [], _ => by simp [dedupByKeyAux]
  | x :: xs, seen => by
    unfold dedupByKeyAux
    split
    · rename_i hx
      obtain ⟨hnd, hni⟩ := nodup_dedupByKeyAux key xs seen
      exact ⟨hnd, hni⟩
    · rename_i hx
      obtain ⟨hnd, hni⟩ := nodup_dedupByKeyAux key xs (key x :: seen)
      refine ⟨?_, ?_⟩
      · rw [List.map_cons, List.nodup_cons]
        refine ⟨?_, hnd⟩
        intro hmem
        rcases List.mem_map.mp hmem with ⟨b, hb, hkb⟩
        exact hni b hb (by rw [hkb]; exact List.mem_cons_self _ _)
      · intro b hb
        rcases List.mem_cons.mp hb with rfl | hb2
        · exact hx
        · intro hbs
          exact hni b hb2 (List.mem_cons_of_mem _ hbs)

theorem nodup_map_key_dedupByKey {α κ : Type} [DecidableEq κ] (key : α → κ)
    (l : List α) : ((dedupByKey key l).map key).Nodup :=
  (nodup_dedupByKeyAux key l []).1

theorem mem_dedupByKey_id {α : Type} [DecidableEq α] (l : List α) (a : α) :
    a ∈ dedupByKey (fun x => x) l ↔ a ∈ l := by
  constructor
  · exact mem_of_mem_dedupByKey
  · intro h
    obtain ⟨b, hb, hkb⟩ := key_mem_dedupByKey (fun x => x) l a h
    have hba : b = a := hkb
    exact hba ▸ hb

theorem find?_dedupByKeyAux {α κ : Type} [DecidableEq κ] (key : α → κ) :
    ∀ (l : List α) (seen : List κ) (r : α), r ∈ dedupByKeyAux key seen l →
      l.find? (fun y => key y = key r) = some r
  | [], _, r, h => by simp [dedupByKeyAux] at h
  | x :: xs, seen, r, h => by
    unfold dedupByKeyAux at h
    split at h
    · rename_i hx
      have hnr := (nodup_dedupByKeyAux key xs seen).2 r h
      have hne : ¬ (key x = key r) := by
        intro he
        exact hnr (he ▸ hx)
      rw [List.find?_cons_of_neg _ (by simp [hne])]
      exact find?_dedupByKeyAux key xs seen r h
    · rename_i hx
      rcases List.mem_cons.mp h with rfl | h2
      · exact List.find?_cons_of_pos _ (by simp)
      · have hnr := (nodup_dedupByKeyAux key xs (key x :: seen)).2 r h2
        have hne : ¬ (key x = key r) := by
          intro he
          exact hnr (by rw [← he]; exact List.mem_cons_self _ _)
        rw [List.find?_cons_of_neg _ (by simp [hne])]
        exact find?_dedupByKeyAux key xs (key x :: seen) r h2

theorem find?_dedupByKey {α κ : Type} [DecidableEq κ] (key : α → κ) (l : List α)
    (r : α) (h : r ∈ dedupByKey key l) :
    l.find? (fun y => key y = key r) = some r :=
  find?_dedupByKeyAux key l [] r h

theorem dedupByKeyAux_eq_self {α κ : Type} [DecidableEq κ] (key : α → κ) :
    ∀ (l : List α) (seen : List κ), (l.map key).Nodup →
      (∀ a ∈ l, ¬ (key a ∈ seen)) → dedupByKeyAux key seen l = l
  | [], _, _, _ => by simp [dedupByKeyAux]
  | x :: xs, seen, hnd, hdisj => by
    unfold dedupByKeyAux
    rw [if_neg (hdisj x (List.mem_cons_self _ _))]
    congr 1
    rw [List.map_cons, List.nodup_cons] at hnd
    apply dedupByKeyAux_eq_self key xs (key x :: seen) hnd.2
    intro a ha hmem
    rcases List.mem_cons.mp hmem with h | h
    · exact hnd.1 (by rw [← h]; exact List.mem_map_of_mem key ha)
    · exact hdisj a (List.mem_cons_of_mem _ ha) h

theorem dedupByKey_idem {α κ : Type} [DecidableEq κ] (key : α → κ) (l : List α) :
    dedupByKey key (dedupByKey key l) = dedupByKey key l := by
  unfold dedupByKey
  apply dedupByKeyAux_eq_self key _ []
  · exact (nodup_dedupByKeyAux key l []).1
  · simp

/-- Count of distinct values in a list, the semantics of pandas
Series.nunique(). -/
def nunique {α : Type} [DecidableEq α] (l : List α) : Nat :=
  (dedupByKey (fun x => x) l).length

theorem nunique_le_of_subset {α : Type} [DecidableEq α] {l1 l2 : List α}
    (h : ∀ a ∈ l1, a ∈ l2) : nunique l1 ≤ nunique l2 := by
  have h1 : (dedupByKey (fun x : α => x) l1).Nodup := by
    have := nodup_map_key_dedupByKey (fun x : α => x) l1
    simpa using this
  have h2 : dedupByKey (fun x : α => x) l1 ⊆ dedupByKey (fun x : α => x) l2 := by
    intro a ha
    rw [mem_dedupByKey_id]
    exact h a ((mem_dedupByKey_id l1 a).mp ha)
  exact (List.Nodup.subperm h1 h2).length_le

theorem nunique_eq_zero_iff {α : Type} [DecidableEq α] (l : List α) :
    nunique l = 0 ↔ l = [] := by
  cases l with
  | nil => simp [nunique, dedupByKey, dedupByKeyAux]
  | cons x xs =>
    simp only [nunique, dedupByKey, dedupByKeyAux]
    rw [if_neg (by simp)]
    simp

/-- Ascending sort of the distinct values of an integer series: the semantics
of sorted(series.unique()) in the retention loops. -/
def sortedUnique (l : List Int) : List Int :=
  (dedupByKey (fun x => x) l).insertionSort (· ≤ ·)

theorem mem_sortedUnique (l : List Int) (a : Int) : a ∈ sortedUnique l ↔ a ∈ l := by
  unfold sortedUnique
  rw [(List.perm_insertionSort (· ≤ ·) (dedupByKey (fun x => x) l)).mem_iff]
  exact mem_dedupByKey_id l a

/-! ## Rounding (Python round with two decimals) -/

/-- Round a rational to the nearest integer, ties to the even neighbour, the
behaviour of Python's built-in round on floats away from representation
noise. -/
def roundHalfEven (x : Rat) : Int :=
  if x - (⌊x⌋ : Rat) < 1/2 then ⌊x⌋
  else if 1/2 < x - (⌊x⌋ : Rat) then ⌊x⌋ + 1
  else if ⌊x⌋ % 2 = 0 then ⌊x⌋ else ⌊x⌋ + 1

/-- Round to two decimal places: round(x, 2). -/
def round2 (x : Rat) : Rat :=
  (roundHalfEven (x * 100) : Rat) / 100

theorem roundHalfEven_intCast (n : Int) : roundHalfEven (n : Rat) = n := by
  unfold roundHalfEven
  rw [Int.floor_intCast]
  rw [if_pos (by norm_num)]

theorem round2_hundred : round2 100 = 100 := by
  unfold round2
  have h : (100 : Rat) * 100 = ((10000 : Int) : Rat) := by norm_num
  rw [h, roundHalfEven_intCast]
  norm_num

theorem roundHalfEven_le_of_le (x : Rat) (b : Int) (hx : x ≤ b) :
    roundHalfEven x ≤ b := by
  have hfl : ⌊x⌋ ≤ b := by
    have h := Int.floor_le_floor hx
    rwa [Int.floor_intCast] at h
  have hstrict : x - (⌊x⌋ : Rat) < 1/2 ∨ ⌊x⌋ < b := by
    rcases lt_or_eq_of_le hfl with h | h
    · exact Or.inr h
    · refine Or.inl ?_
      have hxb : x = (b : Rat) := le_antisymm hx (by rw [← h]; exact Int.floor_le x)
      rw [hxb, Int.floor_intCast]
      norm_num
  unfold roundHalfEven
  split
  · exact hfl
  · rename_i h1
    have hlt : ⌊x⌋ < b := by
      rcases hstrict with h | h
      · exact absurd h h1
      · exact h
    split
    · omega
    · split
      · exact hfl
      · omega

theorem round2_le_hundred (x : Rat) (hx : x ≤ 100) : round2 x ≤ 100 := by
  unfold round2
  have h1 : x * 100 ≤ ((10000 : Int) : Rat) := by
    push_cast
    linarith
  have h2 := roundHalfEven_le_of_le (x * 100) 10000 h1
  have h3 : ((roundHalfEven (x * 100) : Int) : Rat) ≤ 10000 := by
    exact_mod_cast h2
  linarith

/-! ## Substring search (pandas str.contains, Python in) -/

/-- Check that the pattern occurs as a contiguous substring, scanning every
suffix; used to model str.contains and Python's in on strings. -/
def containsAux (pat : List Char) : List Char → Bool
  | [] => pat.isEmpty
  | c :: rest => pat.isPrefixOf (c :: rest) || containsAux pat rest

/-- String containment test: strContains s pat decides whether pat occurs
inside s. -/
def strContains (s pat : String) : Bool :=
  containsAux pat.toList s.toList

/-- Python str.lower / pandas str.lower: lower-case every character.  Spelled
out over the underlying character list (String.toLower maps Char.toLower over
exactly the same characters). -/
def toLowerStr (s : String) : String :=
  ⟨s.toList.map Char.toLower⟩

/-! ## Calendar model -/

/-- A calendar date as the scripts see it: the pandas Timestamp components
year, month (1-12) and day of month (1-31). -/
structure Date where
  year : Int
  month : Int
  day : Int
deriving DecidableEq, Repr

/-- A calendar month, the result of truncating a date to its first day
(Timestamp.replace(day=1) / to_period('M')). -/
structure Month where
  year : Int
  month : Int
deriving DecidableEq, Repr

/-- Truncate a date to its month. -/
def Date.toMonth (d : Date) : Month :=
  { year := d.year, month := d.month }

/-- Absolute index of a month on the time line. -/
def Month.idx (m : Month) : Int :=
  m.year * 12 + (m.month - 1)

/-- Step one calendar month forward handling year rollover, exactly the
month-increment at the bottom of the expansion loop in
Claude_retention_analysis.create_monthly_retention_table. -/
def Month.next (m : Month) : Month :=
  if m.month = 12 then { year := m.year + 1, month := 1 }
  else { year := m.year, month := m.month + 1 }

theorem Month.idx_next (m : Month) : m.next.idx = m.idx + 1 := by
  unfold Month.next Month.idx
  split <;> rename_i h
  · simp only [h]
    ring
  · ring

/-- Number of days since 1970-01-01 of a civil date, the standard
days-from-civil computation; this is the day count a pandas Timestamp
subtraction reports.  Intended for years at least 1, which covers every date
the scripts see. -/
def daysFromCivil (y m d : Int) : Int :=
  let y2 : Int := if m ≤ 2 then y - 1 else y
  let era : Int := y2 / 400
  let yoe : Int := y2 - era * 400
  let mp : Int := (m + 9) % 12
  let doy : Int := (153 * mp + 2) / 5 + d - 1
  let doe : Int := yoe * 365 + yoe / 4 - yoe / 100 + doy
  era * 146097 + doe - 719468

/-- Timestamp value of a date, in days; comparing and subtracting dateKey
values models comparing and subtracting pandas Timestamps. -/
def dateKey (d : Date) : Int :=
  daysFromCivil d.year d.month d.day

/-- The calendar-month while loop of the expansion: all months from a to b
inclusive, stepping by Month.next while the current month does not exceed b
(months compare by their first-day timestamps, i.e. by idx). -/
def monthRangeGo (endIdx : Int) : Nat → Month → List Month
  | 0, _ => []
  | n+1, cur => if cur.idx ≤ endIdx then cur :: monthRangeGo endIdx n cur.next else []

def monthRange (a b : Month) : List Month :=
  monthRangeGo b.idx ((b.idx - a.idx).toNat + 1) a

/-- The list of consecutive integers from a to b inclusive. -/
def intRange (a b : Int) : List Int :=
  (List.range (b + 1 - a).toNat).map (fun k : Nat => a + (k : Int))

theorem mem_intRange (a b k : Int) : k ∈ intRange a b ↔ a ≤ k ∧ k ≤ b := by
  unfold intRange
  rw [List.mem_map]
  constructor
  · rintro ⟨j, hj, rfl⟩
    rw [List.mem_range] at hj
    omega
  · rintro ⟨h1, h2⟩
    refine ⟨(k - a).toNat, ?_, by omega⟩
    rw [List.mem_range]
    omega

theorem intRange_cons (a b : Int) (h : a ≤ b) :
    intRange a b = a :: intRange (a + 1) b := by
  unfold intRange
  have hn : (b + 1 - a).toNat = (b + 1 - (a + 1)).toNat + 1 := by omega
  rw [hn, List.range_succ_eq_map, List.map_cons, List.map_map]
  congr 1
  · omega
  · apply List.map_congr_left
    intro x hx
    simp only [Function.comp_apply]
    omega

theorem intRange_nil (a b : Int) (h : b < a) : intRange a b = [] := by
  unfold intRange
  have : (b + 1 - a).toNat = 0 := by omega
  rw [this]
  simp

theorem monthRangeGo_map_idx (endIdx : Int) :
    ∀ (n : Nat) (cur : Month), endIdx + 1 - cur.idx ≤ n →
      (monthRangeGo endIdx n cur).map Month.idx = intRange cur.idx endIdx := by
  intro n
  induction n with
  | zero =>
    intro cur h
    rw [intRange_nil _ _ (by omega)]
    simp [monthRangeGo]
  | succ n ih =>
    intro cur h
    unfold monthRangeGo
    by_cases hc : cur.idx ≤ endIdx
    · rw [if_pos hc, List.map_cons, ih cur.next (by rw [Month.idx_next]; omega),
        Month.idx_next, intRange_cons _ _ hc]
    · rw [if_neg hc, intRange_nil _ _ (by omega)]
      simp

theorem monthRange_map_idx (a b : Month) (h : a.idx ≤ b.idx) :
    (monthRange a b).map Month.idx = intRange a.idx b.idx := by
  unfold monthRange
  exact monthRangeGo_map_idx b.idx _ a (by omega)

theorem monthRange_nil_iff (a b : Month) : monthRange a b = [] ↔ b.idx < a.idx := by
  constructor
  · intro h
    by_contra hc
    push_neg at hc
    have heq := monthRange_map_idx a b hc
    rw [h] at heq
    have hmem : a.idx ∈ intRange a.idx b.idx := by
      rw [mem_intRange]
      omega
    rw [← heq] at hmem
    simp at hmem
  · intro h
    unfold monthRange
    have hfuel : (b.idx - a.idx).toNat + 1 = 1 := by omega
    rw [hfuel]
    unfold monthRangeGo
    rw [if_neg (by omega)]

theorem nodup_intRange (a b : Int) : (intRange a b).Nodup := by
  unfold intRange
  refine List.Nodup.map ?_ (List.nodup_range _)
  intro x y hxy
  simp only at hxy
  omega

/-! ## Claude_retention_analysis.py : monthly table and cohort retention -/

/-- One cleaned transaction as consumed by create_monthly_retention_table:
identifiers, the parsed order and due dates, the subscription frequency (None
when the CSV cell is missing) and the revenue (None when unparseable). -/
structure Txn where
  customer_id : Nat
  subscription_id : Nat
  order_date : Date
  echeance_date : Date
  frequence : Option String
  consolidated_revenues_ht_euro : Option Rat
deriving DecidableEq, Repr

/-- One row of the monthly activity table built by
create_monthly_retention_table (the pass-through acquisition columns that no
claim touches are omitted). -/
structure MRow where
  customer_id : Nat
  subscription_id : Nat
  mois : Month
  mois_relatif : Int
  date_debut_parcours : Month
  frequence : Option String
  consolidated_revenues_ht_euro : Option Rat
deriving DecidableEq, Repr

/-- Relative month index exactly as computed at lines 109-110 of
Claude_retention_analysis.py: (year difference) x 12 + month difference. -/
def moisRelatif (j m : Month) : Int :=
  (m.year - j.year) * 12 + (m.month - j.month)

theorem moisRelatif_eq_idx_sub (j m : Month) : moisRelatif j m = m.idx - j.idx := by
  unfold moisRelatif Month.idx
  ring

/-- Expansion of one transaction into monthly rows (the inner while loop of
create_monthly_retention_table): one row per calendar month from the order
month to the due month inclusive, tagged with the index relative to the
journey start month j. -/
def claudeExpandTxn (customer_id : Nat) (j : Month) (t : Txn) : List MRow :=
  (monthRange t.order_date.toMonth t.echeance_date.toMonth).map (fun m =>
    { customer_id := customer_id
      subscription_id := t.subscription_id
      mois := m
      mois_relatif := moisRelatif j m
      date_debut_parcours := j
      frequence := t.frequence
      consolidated_revenues_ht_euro := t.consolidated_revenues_ht_euro })

/-- All transactions of one customer, in dataframe order
(df[df['customer_id'] == customer_id]). -/
def txnsOf (txns : List Txn) (c : Nat) : List Txn :=
  txns.filter (fun t => t.customer_id = c)

/-- Month of the customer's earliest order date
(customer_data['order_date'].min() truncated with replace(day=1)); dates
compare as timestamps, i.e. by dateKey. -/
def journeyStartMonth (txns : List Txn) (c : Nat) : Month :=
  match (txnsOf txns c).argmin (fun t => dateKey t.order_date) with
  | some t => t.order_date.toMonth
  | none => { year := 0, month := 1 }

/-- The full monthly table of create_monthly_retention_table before
deduplication: customers in order of first appearance, each of their
transactions expanded against the customer's single journey start month. -/
def claudeMonthlyTable (txns : List Txn) : List MRow :=
  (dedupByKey (fun c => c) (txns.map (fun t => t.customer_id))).flatMap (fun c =>
    (txnsOf txns c).flatMap (fun t => claudeExpandTxn c (journeyStartMonth txns c) t))

/-- The deduplication key of line 137: the (customer_id, mois) column pair. -/
def custMoisKey (r : MRow) : Nat × Month :=
  (r.customer_id, r.mois)

/-- Line 137: monthly_df.drop_duplicates(subset=['customer_id', 'mois']). -/
def dropDuplicatesCustMois (l : List MRow) : List MRow :=
  dedupByKey custMoisKey l

/-- The deduplicated monthly table returned by
create_monthly_retention_table. -/
def claudeTable (txns : List Txn) : List MRow :=
  dropDuplicatesCustMois (claudeMonthlyTable txns)

/-- One entry of the retention table built by calculate_cohort_retention. -/
structure RetPoint where
  cohorte : Month
  mois_relatif : Int
  clients_initiaux : Nat
  clients_actifs : Nat
  taux_retention : Rat
deriving DecidableEq, Repr

/-- Cohort keys in order of first appearance
(monthly_df['date_debut_parcours'].unique()). -/
def cohortsOf (tbl : List MRow) : List Month :=
  dedupByKey (fun m => m) (tbl.map (fun r => r.date_debut_parcours))

/-- Rows of one cohort (monthly_df[monthly_df['date_debut_parcours'] == cohort]). -/
def cohortRows (tbl : List MRow) (c : Month) : List MRow :=
  tbl.filter (fun r => r.date_debut_parcours = c)

/-- Distinct customers active at a relative month inside a set of rows:
rows[rows['mois_relatif'] == m]['customer_id'].nunique().  The same
expression computes both the initial population (m = 0) and the active
population. -/
def customersAt (rows : List MRow) (m : Int) : Nat :=
  nunique ((rows.filter (fun r => r.mois_relatif = m)).map (fun r => r.customer_id))

/-- The retention points of one cohort in calculate_cohort_retention: skipped
when the month-0 population is zero, otherwise one point per relative month
present in the cohort's rows, with
taux_retention = round(active / initial * 100, 2). -/
def cohortPoints (tbl : List MRow) (c : Month) : List RetPoint :=
  if customersAt (cohortRows tbl c) 0 = 0 then []
  else (sortedUnique ((cohortRows tbl c).map (fun r => r.mois_relatif))).map (fun m =>
    { cohorte := c
      mois_relatif := m
      clients_initiaux := customersAt (cohortRows tbl c) 0
      clients_actifs := customersAt (cohortRows tbl c) m
      taux_retention :=
        round2 (((customersAt (cohortRows tbl c) m : Rat)
          / (customersAt (cohortRows tbl c) 0 : Rat)) * 100) })

/-- calculate_cohort_retention: the cohort loop. -/
def calculateCohortRetention (tbl : List MRow) : List RetPoint :=
  (cohortsOf tbl).flatMap (cohortPoints tbl)

/-- One entry of a segmented retention table (calculate_segmented_retention). -/
structure SegRetPoint where
  segment_value : String
  cohorte : Month
  mois_relatif : Int
  clients_initiaux : Nat
  clients_actifs : Nat
  taux_retention : Rat
deriving DecidableEq, Repr

/-- Rows carrying one segment value, for a segment column abstracted as segOf
(frequence, tm_source, tm_medium, cleaned psp or revenue band in the
script). -/
def segRows (tbl : List MRow) (segOf : MRow → Option String) (v : String) : List MRow :=
  tbl.filter (fun r => segOf r = some v)

/-- The retention points of one cohort inside one segment value in
calculate_segmented_retention: skipped under the significance threshold of
10 initial customers, otherwise the same computation as the global
calculator restricted to the segment's rows. -/
def segCohortPoints (tbl : List MRow) (segOf : MRow → Option String) (v : String)
    (c : Month) : List SegRetPoint :=
  if customersAt (cohortRows (segRows tbl segOf v) c) 0 < 10 then []
  else (sortedUnique ((cohortRows (segRows tbl segOf v) c).map
      (fun r => r.mois_relatif))).map (fun m =>
    { segment_value := v
      cohorte := c
      mois_relatif := m
      clients_initiaux := customersAt (cohortRows (segRows tbl segOf v) c) 0
      clients_actifs := customersAt (cohortRows (segRows tbl segOf v) c) m
      taux_retention :=
        round2 (((customersAt (cohortRows (segRows tbl segOf v) c) m : Rat)
          / (customersAt (cohortRows (segRows tbl segOf v) c) 0 : Rat)) * 100) })

/-- calculate_segmented_retention's loops over the segment values and the
cohorts inside each segment. -/
def calculateSegmentedRetention (tbl : List MRow) (segOf : MRow → Option String) :
    List SegRetPoint :=
  (dedupByKey (fun v => v) (tbl.filterMap segOf)).flatMap (fun v =>
    (cohortsOf (segRows tbl segOf v)).flatMap (segCohortPoints tbl segOf v))

/-! ## Gemini scripts : journey segmentation, revenue, expansion, repair -/

/-- Case-insensitive test for "monthly" in the frequency cell, the semantics
of series.str.lower().str.contains('monthly', na=False): a missing cell gives
false. -/
def containsMonthly (freq : Option String) : Bool :=
  match freq with
  | none => false
  | some s => strContains (toLowerStr s) ("monthly")

/-- Churn threshold of lancer_analyse / analyse_abo_court / rapport_final
(np.where applied per row): 35 days for monthly frequencies, 90 otherwise. -/
def seuilChurn (freq : Option String) : Int :=
  if containsMonthly freq then 35 else 90

/-- The nouveau_parcours flag of those three scripts at one row: true when
the gap is undefined (first transaction of the customer) or at least the
threshold of the current row's frequency. -/
def nouveauParcours (freq : Option String) (gap : Option Int) : Bool :=
  match gap with
  | none => true
  | some g => decide (seuilChurn freq ≤ g)

/-- The nouveau_parcours flag of pipeline_JA (lines 90-92): a fixed 90-day
threshold, the frequency plays no role. -/
def pjaNouveauParcours (gap : Option Int) : Bool :=
  match gap with
  | none => true
  | some g => decide ((90 : Int) ≤ g)

/-- The nouveau_parcours column for one customer's transactions in sorted
order; prev carries the previous row's due date
(groupby('customer_id')['ECHEANCE_date'].shift(1)), and the gap is the
timestamp difference in days. -/
def nouveauxFlagsGo (prev : Option Date) : List Txn → List Bool
  | [] => []
  | t :: rest =>
    nouveauParcours t.frequence (prev.map (fun p => dateKey t.order_date - dateKey p))
      :: nouveauxFlagsGo (some t.echeance_date) rest

def nouveauxFlags (ts : List Txn) : List Bool :=
  nouveauxFlagsGo none ts

/-- Running count of true flags: the cumsum that turns nouveau_parcours into
journey numbers. -/
def cumsumBools (k : Nat) : List Bool → List Nat
  | [] => []
  | b :: r => (k + (if b then 1 else 0)) :: cumsumBools (k + (if b then 1 else 0)) r

/-- Journey number of each of one customer's transactions
(nouveau_parcours.cumsum(); the id_parcours string just prepends the customer
id, which is constant inside one group). -/
def idParcours (ts : List Txn) : List Nat :=
  cumsumBools 0 (nouveauxFlags ts)

/-- Each transaction of one customer paired with its journey number. -/
def segmentCustomer (ts : List Txn) : List (Txn × Nat) :=
  ts.zip (idParcours ts)

/-- Python str() of the frequency cell: the string itself, or the text of
float('nan') when the cell is missing. -/
def freqStr (freq : Option String) : String :=
  match freq with
  | some s => s
  | none => ("nan")

/-- Revenue normalization of analyse_abo_court (lines 84-91) and
lancer_analyse (lines 98-104): per active month, an annual subscription
contributes revenue / 12, a monthly one the full revenue, anything else 0;
an unparseable revenue cell lands in the except branch and contributes 0. -/
def montantMensuelCourt (rev : Option Rat) (freq : Option String) : Rat :=
  match rev with
  | none => 0
  | some r =>
    if strContains (toLowerStr (freqStr freq)) ("annual") then r / 12
    else if strContains (toLowerStr (freqStr freq)) ("monthly") then r
    else 0

/-- Revenue normalization of pipeline_JA (lines 109-119): identical shape but
matching the French labels annuel / mensuel. -/
def montantMensuelPJA (rev : Option Rat) (freq : Option String) : Rat :=
  match rev with
  | none => 0
  | some r =>
    if strContains (toLowerStr (freqStr freq)) ("annuel") then r / 12
    else if strContains (toLowerStr (freqStr freq)) ("mensuel") then r
    else 0

/-- One row of the pipeline_JA monthly report (columns no claim touches are
omitted). -/
structure PRow where
  customer_id : Nat
  subscription_id : Nat
  month : Month
  month_relatif : Int
  montant : Rat
  frequence : Option String
deriving DecidableEq, Repr

/-- pd.date_range(start=a, end=b, freq='MS'): every month-start date lying in
the closed interval [a, b]; the month of a is included only when a is its
first day.  Faithful for day fields at least 1. -/
def dateRangeMS (a b : Date) : List Month :=
  if a.day = 1 then monthRange a.toMonth b.toMonth
  else monthRange a.toMonth.next b.toMonth

/-- Month expansion of pipeline_JA.create_monthly_report (lines 98-135):
months from date_range(order_date, ECHEANCE_date, 'MS'), with a one-row
fallback on the order month when that range is empty, and the relative index
computed against the transaction's own order month. -/
def pjaExpandTxn (t : Txn) : List PRow :=
  (if (dateRangeMS t.order_date t.echeance_date).isEmpty
    then [t.order_date.toMonth]
    else dateRangeMS t.order_date t.echeance_date).map (fun m =>
    { customer_id := t.customer_id
      subscription_id := t.subscription_id
      month := m
      month_relatif := moisRelatif t.order_date.toMonth m
      montant := montantMensuelPJA t.consolidated_revenues_ht_euro t.frequence
      frequence := t.frequence })

/-- State of one aggregated subscription inside
lancer_analyse.group_and_repair_data after the to_datetime parsing and the
component-wise reconstruction phases: dates as timestamps in days, None when
still missing, and the methode_reparation_date audit column (initialised to
Originale, overwritten by the phases that fire). -/
structure RepairRec where
  frequence : Option String
  order_date_dt : Option Int
  echeance_date_dt : Option Int
  methode_reparation_date : String
deriving DecidableEq, Repr

/-- Phase 3 of lancer_analyse.group_and_repair_data (lines 68-70): when the
frequency contains "monthly", the due date is still missing and the order
date is present, impute due = order + Timedelta(30 days) and record the
method on the row. -/
def lancerImputeEcheance (r : RepairRec) : RepairRec :=
  if containsMonthly r.frequence = true ∧ r.echeance_date_dt = none
      ∧ ¬ (r.order_date_dt = none) then
    { r with echeance_date_dt := r.order_date_dt.map (fun d => d + 30)
             methode_reparation_date := ("Imputée (+30j)") }
  else r

/-- State of one aggregated subscription inside
rapport_final.group_and_repair_data after parsing and reconstruction: the
same date columns, but that dataframe carries no repair-method column at
all. -/
structure RapportRepairRec where
  frequence : Option String
  order_date : Option Int
  echeance_date : Option Int
deriving DecidableEq, Repr

/-- The imputation of rapport_final.group_and_repair_data (lines 62-63):
same date repair, nothing recorded about it. -/
def rapportImputeEcheance (r : RapportRepairRec) : RapportRepairRec :=
  if containsMonthly r.frequence = true ∧ r.echeance_date = none
      ∧ ¬ (r.order_date = none) then
    { r with echeance_date := r.order_date.map (fun d => d + 30) }
  else r

/-! ## Supporting lemmas about the retention calculators -/

theorem customersAt_le_of_cov (rows : List MRow) (m : Int)
    (h : ∀ r ∈ rows, r.mois_relatif = m →
        ∃ r0 ∈ rows, r0.customer_id = r.customer_id ∧ r0.mois_relatif = 0) :
    customersAt rows m ≤ customersAt rows 0 := by
  unfold customersAt
  apply nunique_le_of_subset
  intro a ha
  rw [List.mem_map] at ha
  obtain ⟨r, hr, rfl⟩ := ha
  rw [List.mem_filter] at hr
  have hm : r.mois_relatif = m := by simpa using hr.2
  obtain ⟨r0, hr0, hcid, h0⟩ := h r hr.1 hm
  rw [List.mem_map]
  refine ⟨r0, ?_, hcid⟩
  rw [List.mem_filter]
  exact ⟨hr0, by simp [h0]⟩

theorem mem_cohortPoints {tbl : List MRow} {c : Month} {p : RetPoint}
    (hp : p ∈ cohortPoints tbl c) :
    ¬ (customersAt (cohortRows tbl c) 0 = 0)
    ∧ ∃ m ∈ sortedUnique ((cohortRows tbl c).map (fun r => r.mois_relatif)),
      p = { cohorte := c
            mois_relatif := m
            clients_initiaux := customersAt (cohortRows tbl c) 0
            clients_actifs := customersAt (cohortRows tbl c) m
            taux_retention := round2 (((customersAt (cohortRows tbl c) m : Rat)
              / (customersAt (cohortRows tbl c) 0 : Rat)) * 100) } := by
  unfold cohortPoints at hp
  split at hp
  · exact absurd hp (List.not_mem_nil p)
  · rename_i h0
    rw [List.mem_map] at hp
    obtain ⟨m, hm, rfl⟩ := hp
    exact ⟨h0, m, hm, rfl⟩

theorem mem_segCohortPoints {tbl : List MRow} {segOf : MRow → Option String}
    {v : String} {c : Month} {p : SegRetPoint}
    (hp : p ∈ segCohortPoints tbl segOf v c) :
    ¬ (customersAt (cohortRows (segRows tbl segOf v) c) 0 < 10)
    ∧ ∃ m ∈ sortedUnique ((cohortRows (segRows tbl segOf v) c).map
        (fun r => r.mois_relatif)),
      p = { segment_value := v
            cohorte := c
            mois_relatif := m
            clients_initiaux := customersAt (cohortRows (segRows tbl segOf v) c) 0
            clients_actifs := customersAt (cohortRows (segRows tbl segOf v) c) m
            taux_retention :=
              round2 (((customersAt (cohortRows (segRows tbl segOf v) c) m : Rat)
                / (customersAt (cohortRows (segRows tbl segOf v) c) 0 : Rat)) * 100) } := by
  unfold segCohortPoints at hp
  split at hp
  · exact absurd hp (List.not_mem_nil p)
  · rename_i h0
    rw [List.mem_map] at hp
    obtain ⟨m, hm, rfl⟩ := hp
    exact ⟨h0, m, hm, rfl⟩

theorem taux_le_hundred (act init : Nat) (hle : act ≤ init) (hpos : ¬ (init = 0)) :
    round2 (((act : Rat) / (init : Rat)) * 100) ≤ 100 := by
  apply round2_le_hundred
  have hzero : (0 : Rat) < (init : Rat) := by
    have h := Nat.pos_of_ne_zero hpos
    exact_mod_cast h
  have h1 : (act : Rat) / (init : Rat) ≤ 1 := by
    rw [div_le_one hzero]
    exact_mod_cast hle
  linarith

theorem rate_self (n : Nat) (h : ¬ (n = 0)) :
    round2 (((n : Rat) / (n : Rat)) * 100) = 100 := by
  have hne : (n : Rat) ≠ 0 := by exact_mod_cast h
  rw [div_self hne, one_mul, round2_hundred]

/-! ## Claim C1 -/

/-- C1: for every cohort of the Cohort Retention Calculator whose initial
population (distinct customers at relative month 0) is non-zero, a retention
point at relative month 0 is emitted for it with retention rate exactly 100,
and every emitted point with relative month 0 carries rate exactly 100. -/
theorem claim_c1_retention_at_month_zero (tbl : List MRow) (c : Month)
    (hc : c ∈ cohortsOf tbl) (h0 : ¬ (customersAt (cohortRows tbl c) 0 = 0)) :
    (∃ p ∈ calculateCohortRetention tbl,
        p.cohorte = c ∧ p.mois_relatif = 0 ∧ p.taux_retention = 100)
    ∧ (∀ p ∈ calculateCohortRetention tbl,
        p.mois_relatif = 0 → p.taux_retention = 100) := by
  constructor
  · have hne : (cohortRows tbl c).filter (fun r => r.mois_relatif = 0) ≠ [] := by
      intro hnil
      apply h0
      unfold customersAt
      rw [hnil]
      simp [nunique, dedupByKey, dedupByKeyAux]
    obtain ⟨r, hr⟩ := List.exists_mem_of_ne_nil _ hne
    rw [List.mem_filter] at hr
    have hr0 : r.mois_relatif = 0 := by simpa using hr.2
    have hmem0 : (0 : Int) ∈ sortedUnique
        ((cohortRows tbl c).map (fun r => r.mois_relatif)) := by
      rw [mem_sortedUnique, List.mem_map]
      exact ⟨r, hr.1, hr0⟩
    have hp0 : ({ cohorte := c
                  mois_relatif := 0
                  clients_initiaux := customersAt (cohortRows tbl c) 0
                  clients_actifs := customersAt (cohortRows tbl c) 0
                  taux_retention := round2 (((customersAt (cohortRows tbl c) 0 : Rat)
                    / (customersAt (cohortRows tbl c) 0 : Rat)) * 100) } : RetPoint)
        ∈ cohortPoints tbl c := by
      unfold cohortPoints
      rw [if_neg h0, List.mem_map]
      exact ⟨0, hmem0, rfl⟩
    refine ⟨{ cohorte := c
              mois_relatif := 0
              clients_initiaux := customersAt (cohortRows tbl c) 0
              clients_actifs := customersAt (cohortRows tbl c) 0
              taux_retention := round2 (((customersAt (cohortRows tbl c) 0 : Rat)
                / (customersAt (cohortRows tbl c) 0 : Rat)) * 100) },
      ?_, rfl, rfl, rate_self _ h0⟩
    unfold calculateCohortRetention
    rw [List.mem_flatMap]
    exact ⟨c, hc, hp0⟩
  · intro p hp hprel
    unfold calculateCohortRetention at hp
    rw [List.mem_flatMap] at hp
    obtain ⟨c2, hc2, hp⟩ := hp
    obtain ⟨h02, m, hm, rfl⟩ := mem_cohortPoints hp
    have hm0 : m = 0 := by simpa using hprel
    subst hm0
    simpa using rate_self (customersAt (cohortRows tbl c2) 0) h02

/-- Witness for C1 at a concrete one-row monthly table. -/
theorem claim_c1_retention_at_month_zero_witness :
    ((⟨2023,1⟩ : Month) ∈ cohortsOf
        ([⟨1, 1, ⟨2023,1⟩, 0, ⟨2023,1⟩, none, none⟩] : List MRow))
    ∧ ¬ (customersAt (cohortRows
        ([⟨1, 1, ⟨2023,1⟩, 0, ⟨2023,1⟩, none, none⟩] : List MRow) ⟨2023,1⟩) 0 = 0)
    ∧ ((∃ p ∈ calculateCohortRetention
          ([⟨1, 1, ⟨2023,1⟩, 0, ⟨2023,1⟩, none, none⟩] : List MRow),
          p.cohorte = ⟨2023,1⟩ ∧ p.mois_relatif = 0 ∧ p.taux_retention = 100)
      ∧ (∀ p ∈ calculateCohortRetention
          ([⟨1, 1, ⟨2023,1⟩, 0, ⟨2023,1⟩, none, none⟩] : List MRow),
          p.mois_relatif = 0 → p.taux_retention = 100)) :=
  ⟨by decide, by decide,
    claim_c1_retention_at_month_zero _ _ (by decide) (by decide)⟩

/-! ## Claim C4 -/

/-- C4 counterexample: running the full Claude pipeline on five transactions
in which customers 1 and 3 have an earliest transaction whose due month
precedes its order month (so they join the 01/2023 cohort with no month-0
row), the calculator reports a point whose active population (2) exceeds the
initial population (1), i.e. a retention rate above 100 percent. -/
theorem claim_c4_counterexample :
    ((calculateCohortRetention (claudeTable
      [⟨1, 1, ⟨2023,1,15⟩, ⟨2022,12,20⟩, none, none⟩,
       ⟨1, 2, ⟨2023,3,10⟩, ⟨2023,3,20⟩, none, none⟩,
       ⟨2, 3, ⟨2023,1,5⟩, ⟨2023,1,20⟩, none, none⟩,
       ⟨3, 4, ⟨2023,1,15⟩, ⟨2022,12,20⟩, none, none⟩,
       ⟨3, 5, ⟨2023,3,10⟩, ⟨2023,3,20⟩, none, none⟩])).any
      (fun p => decide (p.clients_initiaux < p.clients_actifs)) = true)
    ∧ (∃ p ∈ calculateCohortRetention (claudeTable
      [⟨1, 1, ⟨2023,1,15⟩, ⟨2022,12,20⟩, none, none⟩,
       ⟨1, 2, ⟨2023,3,10⟩, ⟨2023,3,20⟩, none, none⟩,
       ⟨2, 3, ⟨2023,1,5⟩, ⟨2023,1,20⟩, none, none⟩,
       ⟨3, 4, ⟨2023,1,15⟩, ⟨2022,12,20⟩, none, none⟩,
       ⟨3, 5, ⟨2023,3,10⟩, ⟨2023,3,20⟩, none, none⟩]),
      p.mois_relatif = 2 ∧ p.clients_initiaux = 1 ∧ p.clients_actifs = 2) := by
  constructor
  · decide
  · decide

/-- C4 amended: for every cohort (global or per-segment), active population
and rounded retention rate are bounded by the initial population and by 100
under the additional hypothesis (violated by the counterexample) that every
customer appearing in a cohort (and segment) also has a row at relative
month 0 there. -/
theorem claim_c4_amended_bound (tbl : List MRow)
    (hcov : ∀ r ∈ tbl, ∃ r0 ∈ tbl, r0.customer_id = r.customer_id
        ∧ r0.date_debut_parcours = r.date_debut_parcours ∧ r0.mois_relatif = 0) :
    (∀ p ∈ calculateCohortRetention tbl,
        p.clients_actifs ≤ p.clients_initiaux ∧ p.taux_retention ≤ 100)
    ∧ ∀ (segOf : MRow → Option String),
      (∀ r ∈ tbl, ∀ v : String, segOf r = some v →
          ∃ r0 ∈ tbl, segOf r0 = some v ∧ r0.customer_id = r.customer_id
            ∧ r0.date_debut_parcours = r.date_debut_parcours ∧ r0.mois_relatif = 0) →
      ∀ p ∈ calculateSegmentedRetention tbl segOf,
        p.clients_actifs ≤ p.clients_initiaux ∧ p.taux_retention ≤ 100 := by
  constructor
  · intro p hp
    unfold calculateCohortRetention at hp
    rw [List.mem_flatMap] at hp
    obtain ⟨c, hc, hp⟩ := hp
    obtain ⟨h0, m, hm, rfl⟩ := mem_cohortPoints hp
    have hle : customersAt (cohortRows tbl c) m ≤ customersAt (cohortRows tbl c) 0 := by
      apply customersAt_le_of_cov
      intro r hr hrm
      unfold cohortRows at hr
      rw [List.mem_filter] at hr
      have hcoh : r.date_debut_parcours = c := by simpa using hr.2
      obtain ⟨r0, hr0, hcid, hcoh0, h00⟩ := hcov r hr.1
      refine ⟨r0, ?_, hcid, h00⟩
      unfold cohortRows
      rw [List.mem_filter]
      exact ⟨hr0, by simp [hcoh0, hcoh]⟩
    exact ⟨hle, taux_le_hundred _ _ hle h0⟩
  · intro segOf hcov2 p hp
    unfold calculateSegmentedRetention at hp
    rw [List.mem_flatMap] at hp
    obtain ⟨v, hv, hp⟩ := hp
    rw [List.mem_flatMap] at hp
    obtain ⟨c, hc, hp⟩ := hp
    obtain ⟨h10, m, hm, rfl⟩ := mem_segCohortPoints hp
    have h0 : ¬ (customersAt (cohortRows (segRows tbl segOf v) c) 0 = 0) := by
      omega
    have hle : customersAt (cohortRows (segRows tbl segOf v) c) m
        ≤ customersAt (cohortRows (segRows tbl segOf v) c) 0 := by
      apply customersAt_le_of_cov
      intro r hr hrm
      unfold cohortRows at hr
      rw [List.mem_filter] at hr
      have hcoh : r.date_debut_parcours = c := by simpa using hr.2
      have hrseg := hr.1
      unfold segRows at hrseg
      rw [List.mem_filter] at hrseg
      have hrv : segOf r = some v := by simpa using hrseg.2
      obtain ⟨r0, hr0, hv0, hcid, hcoh0, h00⟩ := hcov2 r hrseg.1 v hrv
      refine ⟨r0, ?_, hcid, h00⟩
      unfold cohortRows
      rw [List.mem_filter]
      refine ⟨?_, by simp [hcoh0, hcoh]⟩
      unfold segRows
      rw [List.mem_filter]
      exact ⟨hr0, by simp [hv0]⟩
    exact ⟨hle, taux_le_hundred _ _ hle h0⟩

/-- Witness for C4 amended at a concrete one-row monthly table. -/
theorem claim_c4_amended_bound_witness :
    (∀ r ∈ ([⟨1, 1, ⟨2023,1⟩, 0, ⟨2023,1⟩, none, none⟩] : List MRow),
        ∃ r0 ∈ ([⟨1, 1, ⟨2023,1⟩, 0, ⟨2023,1⟩, none, none⟩] : List MRow),
          r0.customer_id = r.customer_id
            ∧ r0.date_debut_parcours = r.date_debut_parcours ∧ r0.mois_relatif = 0)
    ∧ (∀ p ∈ calculateCohortRetention
          ([⟨1, 1, ⟨2023,1⟩, 0, ⟨2023,1⟩, none, none⟩] : List MRow),
        p.clients_actifs ≤ p.clients_initiaux ∧ p.taux_retention ≤ 100) :=
  ⟨by decide, (claim_c4_amended_bound _ (by decide)).1⟩

/-! ## Claim C5 -/

/-- C5: deduplication after monthly expansion keeps at most one row per
(customer_id, mois) pair (the kept keys are pairwise distinct); each kept row
is the first row with its key in expansion order, which follows the original
transaction order inside each customer; every expanded row has a
representative with its key in the deduplicated table; and deduplication is
idempotent, so rerunning expansion plus deduplication on the same
transactions yields the same row set. -/
theorem claim_c5_dedup_first_idempotent (txns : List Txn) :
    ((claudeTable txns).map custMoisKey).Nodup
    ∧ (∀ r ∈ claudeTable txns,
        (claudeMonthlyTable txns).find? (fun x => custMoisKey x = custMoisKey r)
          = some r)
    ∧ (∀ r ∈ claudeMonthlyTable txns, ∃ r2 ∈ claudeTable txns,
        custMoisKey r2 = custMoisKey r)
    ∧ dropDuplicatesCustMois (claudeTable txns) = claudeTable txns := by
  unfold claudeTable dropDuplicatesCustMois
  refine ⟨nodup_map_key_dedupByKey _ _, ?_, ?_, dedupByKey_idem _ _⟩
  · intro r hr
    exact find?_dedupByKey _ _ r hr
  · intro r hr
    exact key_mem_dedupByKey _ _ r hr

/-! ## Claim C10 -/

theorem mem_claudeMonthlyTable {txns : List Txn} {r : MRow}
    (hr : r ∈ claudeMonthlyTable txns) :
    ∃ c, ∃ t ∈ txnsOf txns c, r ∈ claudeExpandTxn c (journeyStartMonth txns c) t := by
  unfold claudeMonthlyTable at hr
  rw [List.mem_flatMap] at hr
  obtain ⟨c, hc, hr⟩ := hr
  rw [List.mem_flatMap] at hr
  obtain ⟨t, ht, hr⟩ := hr
  exact ⟨c, t, ht, hr⟩

theorem claudeExpandTxn_fields {c : Nat} {j : Month} {t : Txn} {r : MRow}
    (hr : r ∈ claudeExpandTxn c j t) :
    r.customer_id = c ∧ r.date_debut_parcours = j
      ∧ r.mois_relatif = moisRelatif j r.mois := by
  unfold claudeExpandTxn at hr
  rw [List.mem_map] at hr
  obtain ⟨m, hm, rfl⟩ := hr
  exact ⟨rfl, rfl, rfl⟩

theorem journeyStartMonth_spec (txns : List Txn) (c : Nat) (h : ¬ (txnsOf txns c = [])) :
    ∃ t0 ∈ txnsOf txns c, journeyStartMonth txns c = t0.order_date.toMonth
      ∧ ∀ t ∈ txnsOf txns c, dateKey t0.order_date ≤ dateKey t.order_date := by
  unfold journeyStartMonth
  cases harg : (txnsOf txns c).argmin (fun t => dateKey t.order_date) with
  | none => exact absurd (List.argmin_eq_none.mp harg) h
  | some t0 =>
    refine ⟨t0, List.argmin_mem harg, rfl, ?_⟩
    intro t ht
    have h2 := List.le_of_mem_argmin ht harg
    exact h2

/-- C10: in the main analysis script every customer has exactly one journey:
each emitted row's cohort label is the month of the earliest order date among
that customer's transactions, its relative month index is computed against
that single month, and all rows of one customer carry the same cohort
label (no gap ever resets the index or moves the customer to a second
cohort). -/
theorem claim_c10_single_journey_per_customer (txns : List Txn) (r : MRow)
    (hr : r ∈ claudeMonthlyTable txns) :
    (∃ t0 ∈ txnsOf txns r.customer_id,
        r.date_debut_parcours = t0.order_date.toMonth
        ∧ ∀ t ∈ txnsOf txns r.customer_id,
            dateKey t0.order_date ≤ dateKey t.order_date)
    ∧ r.mois_relatif = moisRelatif r.date_debut_parcours r.mois
    ∧ ∀ r2 ∈ claudeMonthlyTable txns, r2.customer_id = r.customer_id →
        r2.date_debut_parcours = r.date_debut_parcours := by
  obtain ⟨c, t, ht, hexp⟩ := mem_claudeMonthlyTable hr
  obtain ⟨hcid, hdeb, hrel⟩ := claudeExpandTxn_fields hexp
  have hc : r.customer_id = c := hcid
  have hnonempty : ¬ (txnsOf txns c = []) := by
    intro hnil
    rw [hnil] at ht
    exact List.not_mem_nil t ht
  refine ⟨?_, ?_, ?_⟩
  · obtain ⟨t0, ht0, hjs, hmin⟩ := journeyStartMonth_spec txns c hnonempty
    rw [hc]
    exact ⟨t0, ht0, by rw [hdeb, hjs], hmin⟩
  · rw [hrel, hdeb]
  · intro r2 hr2 hsame
    obtain ⟨c2, t2, ht2, hexp2⟩ := mem_claudeMonthlyTable hr2
    obtain ⟨hcid2, hdeb2, _⟩ := claudeExpandTxn_fields hexp2
    have hcc : c2 = c := by rw [← hcid2, hsame, hcid]
    rw [hdeb2, hdeb, hcc]

/-- Witness for C10 at a concrete single-transaction input. -/
theorem claim_c10_single_journey_per_customer_witness :
    (({ customer_id := 1, subscription_id := 1, mois := ⟨2023,1⟩, mois_relatif := 0,
        date_debut_parcours := ⟨2023,1⟩, frequence := none,
        consolidated_revenues_ht_euro := none } : MRow)
      ∈ claudeMonthlyTable ([⟨1, 1, ⟨2023,1,5⟩, ⟨2023,2,20⟩, none, none⟩] : List Txn))
    ∧ ((∃ t0 ∈ txnsOf ([⟨1, 1, ⟨2023,1,5⟩, ⟨2023,2,20⟩, none, none⟩] : List Txn) 1,
        (⟨2023,1⟩ : Month) = t0.order_date.toMonth
        ∧ ∀ t ∈ txnsOf ([⟨1, 1, ⟨2023,1,5⟩, ⟨2023,2,20⟩, none, none⟩] : List Txn) 1,
            dateKey t0.order_date ≤ dateKey t.order_date)
      ∧ (0 : Int) = moisRelatif ⟨2023,1⟩ ⟨2023,1⟩
      ∧ ∀ r2 ∈ claudeMonthlyTable ([⟨1, 1, ⟨2023,1,5⟩, ⟨2023,2,20⟩, none, none⟩] : List Txn),
          r2.customer_id = 1 → r2.date_debut_parcours = ⟨2023,1⟩) :=
  ⟨by decide,
    claim_c10_single_journey_per_customer
      ([⟨1, 1, ⟨2023,1,5⟩, ⟨2023,2,20⟩, none, none⟩] : List Txn)
      ({ customer_id := 1, subscription_id := 1, mois := ⟨2023,1⟩, mois_relatif := 0,
         date_debut_parcours := ⟨2023,1⟩, frequence := none,
         consolidated_revenues_ht_euro := none } : MRow) (by decide)⟩

/-! ## Claim C2 -/

theorem intRange_length (a b : Int) : (intRange a b).length = (b + 1 - a).toNat := by
  unfold intRange
  rw [List.length_map, List.length_range]

theorem claudeExpandTxn_map_mois (c : Nat) (j : Month) (t : Txn) :
    (claudeExpandTxn c j t).map (fun r => r.mois)
      = monthRange t.order_date.toMonth t.echeance_date.toMonth := by
  unfold claudeExpandTxn
  rw [List.map_map]
  exact List.map_id _

theorem claudeExpandTxn_map_mois_idx (c : Nat) (j : Month) (t : Txn) :
    (claudeExpandTxn c j t).map (fun r => r.mois.idx)
      = (monthRange t.order_date.toMonth t.echeance_date.toMonth).map Month.idx := by
  rw [← claudeExpandTxn_map_mois c j t, List.map_map]
  rfl

theorem pjaExpandTxn_map_month (t : Txn) :
    (pjaExpandTxn t).map (fun r => r.month)
      = (if (dateRangeMS t.order_date t.echeance_date).isEmpty
          then [t.order_date.toMonth]
          else dateRangeMS t.order_date t.echeance_date) := by
  unfold pjaExpandTxn
  rw [List.map_map]
  exact List.map_id _

/-- C2 counterexample: a single-transaction journey starting 2023-01-15 with
due date 2023-03-20 (journey-start month 01/2023, due month 03/2023, so the
claim demands three rows with indices 0, 1, 2); the pipeline_JA expander
emits only two rows, with indices 1 and 2, because it enumerates month-start
timestamps inside the raw date interval and 2023-01-01 lies before the start
date. -/
theorem claim_c2_counterexample :
    ((pjaExpandTxn ⟨7, 1, ⟨2023,1,15⟩, ⟨2023,3,20⟩, none, none⟩).map
        (fun r => r.month_relatif) = [1, 2])
    ∧ ¬ ((pjaExpandTxn ⟨7, 1, ⟨2023,1,15⟩, ⟨2023,3,20⟩, none, none⟩).length = 3) := by
  constructor
  · decide
  · decide

/-- C2 amended: the claimed behaviour holds for the Claude-style expanders
(one row per calendar month from the order month to the due month inclusive,
index computed against the journey start month by the year/month formula);
the pipeline_JA expander instead emits one row per month-start timestamp in
the closed raw date interval (skipping the start month when the start day is
past the 1st, with a one-row fallback on the order month when no month start
fits) and computes the index against the transaction's own order month. -/
theorem claim_c2_amended (j : Month) (t : Txn)
    (h : t.order_date.toMonth.idx ≤ t.echeance_date.toMonth.idx) :
    ((claudeExpandTxn t.customer_id j t).map (fun r => r.mois.idx)
        = intRange t.order_date.toMonth.idx t.echeance_date.toMonth.idx)
    ∧ ((claudeExpandTxn t.customer_id j t).map (fun r => r.mois.idx)).Nodup
    ∧ (claudeExpandTxn t.customer_id j t).length
        = (t.echeance_date.toMonth.idx - t.order_date.toMonth.idx).toNat + 1
    ∧ (∀ r ∈ claudeExpandTxn t.customer_id j t,
        r.mois_relatif = (r.mois.year - j.year) * 12 + (r.mois.month - j.month))
    ∧ (∀ t2 : Txn,
        ((if t2.order_date.day = 1 then t2.order_date.toMonth.idx
            else t2.order_date.toMonth.idx + 1) ≤ t2.echeance_date.toMonth.idx →
          (pjaExpandTxn t2).map (fun r => r.month.idx)
            = intRange (if t2.order_date.day = 1 then t2.order_date.toMonth.idx
                else t2.order_date.toMonth.idx + 1) t2.echeance_date.toMonth.idx)
        ∧ (t2.echeance_date.toMonth.idx < (if t2.order_date.day = 1
              then t2.order_date.toMonth.idx else t2.order_date.toMonth.idx + 1) →
          (pjaExpandTxn t2).map (fun r => r.month.idx) = [t2.order_date.toMonth.idx])
        ∧ ∀ r ∈ pjaExpandTxn t2,
            r.month_relatif = r.month.idx - t2.order_date.toMonth.idx) := by
  have hmapc : (claudeExpandTxn t.customer_id j t).map (fun r => r.mois.idx)
      = intRange t.order_date.toMonth.idx t.echeance_date.toMonth.idx := by
    rw [claudeExpandTxn_map_mois_idx, monthRange_map_idx _ _ h]
  refine ⟨hmapc, ?_, ?_, ?_, ?_⟩
  · rw [hmapc]
    exact nodup_intRange _ _
  · have hlen := congrArg List.length hmapc
    rw [List.length_map, intRange_length] at hlen
    rw [hlen]
    omega
  · intro r hr
    unfold claudeExpandTxn at hr
    rw [List.mem_map] at hr
    obtain ⟨m, hm, rfl⟩ := hr
    rfl
  · intro t2
    have hrange : ∀ hd : Month,
        (dateRangeMS t2.order_date t2.echeance_date)
          = monthRange (if t2.order_date.day = 1 then t2.order_date.toMonth
              else t2.order_date.toMonth.next) t2.echeance_date.toMonth := by
      intro hd
      unfold dateRangeMS
      split <;> rfl
    have hsidx : (if t2.order_date.day = 1 then t2.order_date.toMonth
        else t2.order_date.toMonth.next).idx
        = (if t2.order_date.day = 1 then t2.order_date.toMonth.idx
            else t2.order_date.toMonth.idx + 1) := by
      split
      · rfl
      · exact Month.idx_next _
    refine ⟨?_, ?_, ?_⟩
    · intro hle
      have hne : ¬ (dateRangeMS t2.order_date t2.echeance_date = []) := by
        rw [hrange ⟨0,1⟩, monthRange_nil_iff]
        omega
      have hemp : (dateRangeMS t2.order_date t2.echeance_date).isEmpty = false := by
        rw [List.isEmpty_eq_false]
        exact hne
      have hmap := pjaExpandTxn_map_month t2
      rw [hemp] at hmap
      simp only [Bool.false_eq_true, if_false] at hmap
      have : (pjaExpandTxn t2).map (fun r => r.month.idx)
          = (dateRangeMS t2.order_date t2.echeance_date).map Month.idx := by
        rw [← hmap, List.map_map]
        rfl
      rw [this, hrange ⟨0,1⟩, monthRange_map_idx, hsidx]
      rw [hsidx]
      exact hle
    · intro hlt
      have hnil : dateRangeMS t2.order_date t2.echeance_date = [] := by
        rw [hrange ⟨0,1⟩, monthRange_nil_iff]
        omega
      have hemp : (dateRangeMS t2.order_date t2.echeance_date).isEmpty = true := by
        rw [List.isEmpty_iff]
        exact hnil
      have hmap := pjaExpandTxn_map_month t2
      rw [hemp] at hmap
      simp only [if_true] at hmap
      have : (pjaExpandTxn t2).map (fun r => r.month.idx)
          = [t2.order_date.toMonth].map Month.idx := by
        rw [← hmap, List.map_map]
        rfl
      rw [this]
      rfl
    · intro r hr
      unfold pjaExpandTxn at hr
      rw [List.mem_map] at hr
      obtain ⟨m, hm, rfl⟩ := hr
      exact moisRelatif_eq_idx_sub _ _

/-- Witness for C2 amended: a journey-start month 01/2023 and a transaction
covering 01/2023 through 03/2023. -/
theorem claim_c2_amended_witness :
    ((⟨5, 1, ⟨2023,1,1⟩, ⟨2023,3,31⟩, none, none⟩ : Txn).order_date.toMonth.idx
      ≤ (⟨5, 1, ⟨2023,1,1⟩, ⟨2023,3,31⟩, none, none⟩ : Txn).echeance_date.toMonth.idx)
    ∧ (((claudeExpandTxn (⟨5, 1, ⟨2023,1,1⟩, ⟨2023,3,31⟩, none, none⟩ : Txn).customer_id
          ⟨2023,1⟩ ⟨5, 1, ⟨2023,1,1⟩, ⟨2023,3,31⟩, none, none⟩).map (fun r => r.mois.idx)
        = intRange (⟨5, 1, ⟨2023,1,1⟩, ⟨2023,3,31⟩, none, none⟩ : Txn).order_date.toMonth.idx
            (⟨5, 1, ⟨2023,1,1⟩, ⟨2023,3,31⟩, none, none⟩ : Txn).echeance_date.toMonth.idx)
      ∧ ((claudeExpandTxn (⟨5, 1, ⟨2023,1,1⟩, ⟨2023,3,31⟩, none, none⟩ : Txn).customer_id
          ⟨2023,1⟩ ⟨5, 1, ⟨2023,1,1⟩, ⟨2023,3,31⟩, none, none⟩).map (fun r => r.mois.idx)).Nodup
      ∧ (claudeExpandTxn (⟨5, 1, ⟨2023,1,1⟩, ⟨2023,3,31⟩, none, none⟩ : Txn).customer_id
          ⟨2023,1⟩ ⟨5, 1, ⟨2023,1,1⟩, ⟨2023,3,31⟩, none, none⟩).length
          = ((⟨5, 1, ⟨2023,1,1⟩, ⟨2023,3,31⟩, none, none⟩ : Txn).echeance_date.toMonth.idx
              - (⟨5, 1, ⟨2023,1,1⟩, ⟨2023,3,31⟩, none, none⟩ : Txn).order_date.toMonth.idx).toNat + 1
      ∧ (∀ r ∈ claudeExpandTxn (⟨5, 1, ⟨2023,1,1⟩, ⟨2023,3,31⟩, none, none⟩ : Txn).customer_id
            ⟨2023,1⟩ ⟨5, 1, ⟨2023,1,1⟩, ⟨2023,3,31⟩, none, none⟩,
          r.mois_relatif = (r.mois.year - (2023:Int)) * 12 + (r.mois.month - 1))
      ∧ (∀ t2 : Txn,
          ((if t2.order_date.day = 1 then t2.order_date.toMonth.idx
              else t2.order_date.toMonth.idx + 1) ≤ t2.echeance_date.toMonth.idx →
            (pjaExpandTxn t2).map (fun r => r.month.idx)
              = intRange (if t2.order_date.day = 1 then t2.order_date.toMonth.idx
                  else t2.order_date.toMonth.idx + 1) t2.echeance_date.toMonth.idx)
          ∧ (t2.echeance_date.toMonth.idx < (if t2.order_date.day = 1
                then t2.order_date.toMonth.idx else t2.order_date.toMonth.idx + 1) →
            (pjaExpandTxn t2).map (fun r => r.month.idx) = [t2.order_date.toMonth.idx])
          ∧ ∀ r ∈ pjaExpandTxn t2,
              r.month_relatif = r.month.idx - t2.order_date.toMonth.idx)) :=
  ⟨by decide, claim_c2_amended ⟨2023,1⟩ ⟨5, 1, ⟨2023,1,1⟩, ⟨2023,3,31⟩, none, none⟩ (by decide)⟩

/-! ## Claim C6 -/

/-- C6 counterexample: a transaction whose due date 2023-01-10 strictly
precedes its start date 2023-01-15 as a timestamp; both dates truncate to the
same month, so the Claude expander emits one row, not zero. -/
theorem claim_c6_counterexample :
    (dateKey ⟨2023,1,10⟩ < dateKey ⟨2023,1,15⟩)
    ∧ ¬ (claudeExpandTxn 1 ⟨2023,1⟩ ⟨1, 1, ⟨2023,1,15⟩, ⟨2023,1,10⟩, none, none⟩ = [])
    ∧ (claudeExpandTxn 1 ⟨2023,1⟩ ⟨1, 1, ⟨2023,1,15⟩, ⟨2023,1,10⟩, none, none⟩).length = 1 := by
  refine ⟨by decide, by decide, by decide⟩

/-- C6 amended: the Claude-style expander emits zero rows exactly when the due
month strictly precedes the start month (a due date before the start date
inside the same month still yields one row), and the pipeline_JA expander
never emits zero rows because of its one-row fallback on the order month. -/
theorem claim_c6_amended (c : Nat) (j : Month) (t : Txn) :
    (claudeExpandTxn c j t = []
      ↔ t.echeance_date.toMonth.idx < t.order_date.toMonth.idx)
    ∧ ∀ t2 : Txn, ¬ (pjaExpandTxn t2 = []) := by
  constructor
  · unfold claudeExpandTxn
    rw [List.map_eq_nil_iff]
    exact monthRange_nil_iff _ _
  · intro t2 hempty
    unfold pjaExpandTxn at hempty
    rw [List.map_eq_nil_iff] at hempty
    by_cases hd : (dateRangeMS t2.order_date t2.echeance_date).isEmpty
    · rw [if_pos hd] at hempty
      simp at hempty
    · rw [if_neg hd] at hempty
      rw [hempty] at hd
      simp at hd

/-! ## Claim C3 -/

theorem nouveauxFlagsGo_pair (t1 t2 : Txn) :
    ∀ (pre : List Txn) (prev : Option Date) (post : List Txn),
      (nouveauxFlagsGo prev (pre ++ t1 :: t2 :: post))[pre.length + 1]?
        = some (nouveauParcours t2.frequence
            (some (dateKey t2.order_date - dateKey t1.echeance_date)))
  | [], prev, post => by
    simp [nouveauxFlagsGo]
  | p :: pre2, prev, post => by
    simp only [List.cons_append, nouveauxFlagsGo, List.length_cons,
      List.getElem?_cons_succ]
    exact nouveauxFlagsGo_pair t1 t2 pre2 (some p.echeance_date) post

/-- C3 counterexample: the claimed 35-day rule for monthly frequencies fails
on the pipeline_JA segmenter, whose threshold is a fixed 90 days: a 40-day
gap with frequency "monthly" (threshold 35 per the claim, so a new journey
must start) does not start a new journey there, while the segmenter of the
other three scripts does start one. -/
theorem claim_c3_counterexample :
    seuilChurn (some ("monthly")) = 35
    ∧ ((35 : Int) ≤ 40)
    ∧ pjaNouveauParcours (some 40) = false
    ∧ pjaNouveauParcours (some (dateKey ⟨2023,2,10⟩ - dateKey ⟨2023,1,1⟩)) = false
    ∧ (nouveauxFlags [⟨1, 1, ⟨2023,1,1⟩, ⟨2023,1,1⟩, some ("monthly"), none⟩,
        ⟨1, 2, ⟨2023,2,10⟩, ⟨2023,3,1⟩, some ("monthly"), none⟩] = [true, true])
    ∧ (nouveauxFlags [⟨1, 1, ⟨2023,1,1⟩, ⟨2023,1,1⟩, some ("annual"), none⟩,
        ⟨1, 2, ⟨2023,2,10⟩, ⟨2023,3,1⟩, some ("annual"), none⟩] = [true, false]) := by
  decide

/-- C3 amended: in the segmenter of lancer_analyse, analyse_abo_court and
rapport_final, the row after any prefix gets a new-journey flag exactly when
the day gap from the previous transaction's due date to its start date
reaches the threshold of its own frequency (35 when the lower-cased frequency
contains "monthly", else 90, including an absent frequency); the first row's
gap is undefined and always starts a journey; a 40-day gap starts a journey
under "monthly" and not under "annual".  (pipeline_JA uses a fixed 90-day
threshold instead, per the counterexample.) -/
theorem claim_c3_amended_threshold :
    (∀ (pre post : List Txn) (t1 t2 : Txn),
        (nouveauxFlags (pre ++ t1 :: t2 :: post))[pre.length + 1]?
          = some (nouveauParcours t2.frequence
              (some (dateKey t2.order_date - dateKey t1.echeance_date))))
    ∧ (∀ (t : Txn) (rest : List Txn), (nouveauxFlags (t :: rest))[0]? = some true)
    ∧ (∀ (f : Option String) (g : Int),
        nouveauParcours f (some g) = decide (seuilChurn f ≤ g))
    ∧ (∀ f : Option String, nouveauParcours f none = true)
    ∧ (∀ f : Option String, seuilChurn f = if containsMonthly f = true then 35 else 90)
    ∧ nouveauParcours (some ("monthly")) (some 40) = true
    ∧ nouveauParcours (some ("annual")) (some 40) = false := by
  refine ⟨?_, ?_, ?_, ?_, ?_, by decide, by decide⟩
  · intro pre post t1 t2
    exact nouveauxFlagsGo_pair t1 t2 pre none post
  · intro t rest
    simp [nouveauxFlags, nouveauxFlagsGo, nouveauParcours]
  · intro f g
    rfl
  · intro f
    rfl
  · intro f
    rfl

/-! ## Claim C9 -/

theorem length_nouveauxFlagsGo :
    ∀ (l : List Txn) (prev : Option Date), (nouveauxFlagsGo prev l).length = l.length
  | [], _ => rfl
  | t :: rest, prev => by
    simp only [nouveauxFlagsGo, List.length_cons]
    rw [length_nouveauxFlagsGo rest (some t.echeance_date)]

theorem length_cumsumBools :
    ∀ (bs : List Bool) (k : Nat), (cumsumBools k bs).length = bs.length
  | [], _ => rfl
  | b :: r, k => by
    simp only [cumsumBools, List.length_cons]
    rw [length_cumsumBools r _]

theorem head?_cumsumBools (k : Nat) (bs : List Bool) :
    (cumsumBools k bs).head? = bs.head?.map (fun b => k + (if b then 1 else 0)) := by
  cases bs <;> rfl

theorem chain_cumsumBools :
    ∀ (bs : List Bool) (k : Nat),
      List.Chain' (fun a b => a ≤ b ∧ b ≤ a + 1) (cumsumBools k bs)
  | [], _ => by simp [cumsumBools]
  | b :: r, k => by
    simp only [cumsumBools]
    rw [List.chain'_cons']
    refine ⟨?_, chain_cumsumBools r _⟩
    intro y hy
    cases r with
    | nil => simp [cumsumBools] at hy
    | cons b2 r2 =>
      simp only [cumsumBools, List.head?_cons, Option.mem_def,
        Option.some.injEq] at hy
      subst hy
      cases b2 <;> simp

theorem pairwise_le_cumsumBools (bs : List Bool) (k : Nat) :
    List.Pairwise (· ≤ ·) (cumsumBools k bs) := by
  have hch : List.Chain' (fun a b : Nat => a ≤ b) (cumsumBools k bs) :=
    (chain_cumsumBools bs k).imp (fun a b h => h.1)
  exact List.chain'_iff_pairwise.mp hch

/-- C9: journey segmentation is a partition: pairing each transaction with
its journey number returns every transaction exactly once; the first
transaction always opens journey 1; journey numbers never decrease and grow
by at most one per step, so each journey is one contiguous block of the
customer's sorted transactions (journeys are disjoint); and for input sorted
by start date, any transaction in an earlier journey starts no later than any
transaction in a later journey. -/
theorem claim_c9_partition (ts : List Txn)
    (hsorted : List.Pairwise
      (fun a b => dateKey a.order_date ≤ dateKey b.order_date) ts) :
    ((segmentCustomer ts).map Prod.fst = ts)
    ∧ (idParcours ts).length = ts.length
    ∧ (idParcours ts).head? = ts.head?.map (fun _ => 1)
    ∧ List.Pairwise (· ≤ ·) (idParcours ts)
    ∧ List.Chain' (fun a b => b ≤ a + 1) (idParcours ts)
    ∧ (∀ p ∈ segmentCustomer ts, ∀ q ∈ segmentCustomer ts,
        p.2 < q.2 → dateKey p.1.order_date ≤ dateKey q.1.order_date) := by
  have hlen : (idParcours ts).length = ts.length := by
    unfold idParcours nouveauxFlags
    rw [length_cumsumBools, length_nouveauxFlagsGo]
  have hmapfst : (segmentCustomer ts).map Prod.fst = ts :=
    List.map_fst_zip _ _ (le_of_eq hlen.symm)
  have hpw : List.Pairwise (· ≤ ·) (idParcours ts) := pairwise_le_cumsumBools _ _
  refine ⟨hmapfst, hlen, ?_, hpw, ?_, ?_⟩
  · cases ts with
    | nil => rfl
    | cons t rest =>
      simp only [idParcours, nouveauxFlags, nouveauxFlagsGo, Option.map_none,
        nouveauParcours, cumsumBools, head?_cumsumBools]
      rfl
  · exact (chain_cumsumBools _ _).imp (fun a b h => h.2)
  · intro p hp q hq hlt
    have hz1 : List.Pairwise
        (fun p q : Txn × Nat => dateKey p.1.order_date ≤ dateKey q.1.order_date)
        (segmentCustomer ts) := by
      rw [← hmapfst] at hsorted
      exact (List.pairwise_map (f := Prod.fst)).mp hsorted
    have hz2 : List.Pairwise (fun p q : Txn × Nat => p.2 ≤ q.2)
        (segmentCustomer ts) := by
      have hmapsnd : (segmentCustomer ts).map Prod.snd = idParcours ts :=
        List.map_snd_zip _ _ (le_of_eq hlen)
      rw [← hmapsnd] at hpw
      exact (List.pairwise_map (f := Prod.snd)).mp hpw
    obtain ⟨i, hi⟩ := List.mem_iff_get.mp hp
    obtain ⟨j, hj⟩ := List.mem_iff_get.mp hq
    rcases lt_trichotomy i j with hij | hij | hij
    · have := (List.pairwise_iff_get.mp hz1) i j hij
      rw [hi, hj] at this
      exact this
    · exfalso
      rw [← hi, ← hj, hij] at hlt
      exact lt_irrefl _ hlt
    · exfalso
      have := (List.pairwise_iff_get.mp hz2) j i hij
      rw [hi, hj] at this
      omega

/-- Witness for C9 on two concrete sorted transactions. -/
theorem claim_c9_partition_witness :
    (List.Pairwise (fun a b => dateKey a.order_date ≤ dateKey b.order_date)
      ([⟨1, 1, ⟨2023,1,1⟩, ⟨2023,1,31⟩, some ("monthly"), none⟩,
        ⟨1, 2, ⟨2023,4,1⟩, ⟨2023,4,30⟩, some ("monthly"), none⟩] : List Txn))
    ∧ (((segmentCustomer
          ([⟨1, 1, ⟨2023,1,1⟩, ⟨2023,1,31⟩, some ("monthly"), none⟩,
            ⟨1, 2, ⟨2023,4,1⟩, ⟨2023,4,30⟩, some ("monthly"), none⟩] : List Txn)).map
            Prod.fst
          = ([⟨1, 1, ⟨2023,1,1⟩, ⟨2023,1,31⟩, some ("monthly"), none⟩,
              ⟨1, 2, ⟨2023,4,1⟩, ⟨2023,4,30⟩, some ("monthly"), none⟩] : List Txn))
      ∧ (idParcours
          ([⟨1, 1, ⟨2023,1,1⟩, ⟨2023,1,31⟩, some ("monthly"), none⟩,
            ⟨1, 2, ⟨2023,4,1⟩, ⟨2023,4,30⟩, some ("monthly"), none⟩] : List Txn)).length
          = ([⟨1, 1, ⟨2023,1,1⟩, ⟨2023,1,31⟩, some ("monthly"), none⟩,
              ⟨1, 2, ⟨2023,4,1⟩, ⟨2023,4,30⟩, some ("monthly"), none⟩] : List Txn).length
      ∧ (idParcours
          ([⟨1, 1, ⟨2023,1,1⟩, ⟨2023,1,31⟩, some ("monthly"), none⟩,
            ⟨1, 2, ⟨2023,4,1⟩, ⟨2023,4,30⟩, some ("monthly"), none⟩] : List Txn)).head?
          = ([⟨1, 1, ⟨2023,1,1⟩, ⟨2023,1,31⟩, some ("monthly"), none⟩,
              ⟨1, 2, ⟨2023,4,1⟩, ⟨2023,4,30⟩, some ("monthly"), none⟩] : List Txn).head?.map
              (fun _ => 1)
      ∧ List.Pairwise (· ≤ ·) (idParcours
          ([⟨1, 1, ⟨2023,1,1⟩, ⟨2023,1,31⟩, some ("monthly"), none⟩,
            ⟨1, 2, ⟨2023,4,1⟩, ⟨2023,4,30⟩, some ("monthly"), none⟩] : List Txn))
      ∧ List.Chain' (fun a b => b ≤ a + 1) (idParcours
          ([⟨1, 1, ⟨2023,1,1⟩, ⟨2023,1,31⟩, some ("monthly"), none⟩,
            ⟨1, 2, ⟨2023,4,1⟩, ⟨2023,4,30⟩, some ("monthly"), none⟩] : List Txn))
      ∧ (∀ p ∈ segmentCustomer
            ([⟨1, 1, ⟨2023,1,1⟩, ⟨2023,1,31⟩, some ("monthly"), none⟩,
              ⟨1, 2, ⟨2023,4,1⟩, ⟨2023,4,30⟩, some ("monthly"), none⟩] : List Txn),
          ∀ q ∈ segmentCustomer
            ([⟨1, 1, ⟨2023,1,1⟩, ⟨2023,1,31⟩, some ("monthly"), none⟩,
              ⟨1, 2, ⟨2023,4,1⟩, ⟨2023,4,30⟩, some ("monthly"), none⟩] : List Txn),
          p.2 < q.2 → dateKey p.1.order_date ≤ dateKey q.1.order_date)) :=
  ⟨by decide,
    claim_c9_partition
      ([⟨1, 1, ⟨2023,1,1⟩, ⟨2023,1,31⟩, some ("monthly"), none⟩,
        ⟨1, 2, ⟨2023,4,1⟩, ⟨2023,4,30⟩, some ("monthly"), none⟩] : List Txn) (by decide)⟩

/-! ## Claim C7 -/

/-- C7: evaluation of the two revenue-normalization implementations.  The
corrected scripts (analyse_abo_court, lancer_analyse) give a monthly
subscription its full revenue, an annual one revenue/12 (case-insensitively)
and anything else or unparseable 0, as the claim states; pipeline_JA matches
the French labels annuel / mensuel, so the real data values "monthly" and
"annual" (the values the sibling script's CORRECTION comment documents) both
produce a zero monthly amount there. -/
theorem claim_c7_revenue_normalization :
    montantMensuelCourt (some 10) (some ("monthly")) = 10
    ∧ montantMensuelCourt (some 10) (some ("annual")) = 10 / 12
    ∧ montantMensuelCourt (some 10) (some ("ANNUAL")) = 10 / 12
    ∧ montantMensuelCourt (some 10) (some ("weekly")) = 0
    ∧ montantMensuelCourt (some 10) none = 0
    ∧ montantMensuelCourt none (some ("monthly")) = 0
    ∧ montantMensuelPJA (some 10) (some ("monthly")) = 0
    ∧ montantMensuelPJA (some 10) (some ("annual")) = 0
    ∧ montantMensuelPJA (some 10) (some ("mensuel")) = 10 :=
  ⟨rfl, rfl, rfl, rfl, rfl, rfl, rfl, rfl, rfl⟩

/-! ## Claim C8 -/

/-- The repair-method information a rapport_final record carries: that
dataframe has no repair-method column at all, so there is none to read. -/
def rapportMethodeReparation (_r : RapportRepairRec) : Option String :=
  none

/-- C8 counterexample: on a record with monthly frequency, order date present
and due date still missing after reconstruction, lancer_analyse imputes
order + 30 and records the method on the row; rapport_final applies the same
imputation but records no repair method for the record, so the claim's
"recorded on that record" fails for that implementation. -/
theorem claim_c8_counterexample :
    ((lancerImputeEcheance
        ⟨some ("monthly"), some 100, none, ("Originale")⟩).methode_reparation_date
      = ("Imputée (+30j)"))
    ∧ ((lancerImputeEcheance
        ⟨some ("monthly"), some 100, none, ("Originale")⟩).echeance_date_dt = some 130)
    ∧ ((rapportImputeEcheance ⟨some ("monthly"), some 100, none⟩).echeance_date
      = some 130)
    ∧ ¬ (∃ s : String, rapportMethodeReparation
          (rapportImputeEcheance ⟨some ("monthly"), some 100, none⟩) = some s) := by
  refine ⟨by decide, by decide, by decide, ?_⟩
  rintro ⟨s, hs⟩
  simp [rapportMethodeReparation] at hs

/-- C8 amended: when the frequency indicates a monthly cadence, the due date
is missing after parsing and reconstruction and the start date is present,
both gemini repair implementations set due = start + 30 days;
the applied method is recorded on the record in lancer_analyse
(methode_reparation_date becomes the imputation label), while rapport_final
performs the repair without recording any method. -/
theorem claim_c8_amended_repair (r : RepairRec) (r2 : RapportRepairRec) (d : Int)
    (hf : containsMonthly r.frequence = true)
    (he : r.echeance_date_dt = none)
    (ho : r.order_date_dt = some d)
    (hf2 : containsMonthly r2.frequence = true)
    (he2 : r2.echeance_date = none)
    (ho2 : r2.order_date = some d) :
    (lancerImputeEcheance r).echeance_date_dt = some (d + 30)
    ∧ (lancerImputeEcheance r).methode_reparation_date = ("Imputée (+30j)")
    ∧ (rapportImputeEcheance r2).echeance_date = some (d + 30)
    ∧ rapportMethodeReparation (rapportImputeEcheance r2) = none := by
  unfold lancerImputeEcheance rapportImputeEcheance
  rw [if_pos ⟨hf, he, by simp [ho]⟩, if_pos ⟨hf2, he2, by simp [ho2]⟩]
  refine ⟨by simp [ho], rfl, by simp [ho2], rfl⟩

/-- Witness for C8 amended on concrete repair records. -/
theorem claim_c8_amended_repair_witness :
    (containsMonthly (some ("monthly")) = true)
    ∧ ((lancerImputeEcheance ⟨some ("monthly"), some 100, none, ("Originale")⟩).echeance_date_dt
        = some (100 + 30)
      ∧ (lancerImputeEcheance
          ⟨some ("monthly"), some 100, none, ("Originale")⟩).methode_reparation_date
        = ("Imputée (+30j)")
      ∧ (rapportImputeEcheance ⟨some ("monthly"), some 100, none⟩).echeance_date
        = some (100 + 30)
      ∧ rapportMethodeReparation
          (rapportImputeEcheance ⟨some ("monthly"), some 100, none⟩) = none) :=
  ⟨by decide,
    claim_c8_amended_repair
      ⟨some ("monthly"), some 100, none, ("Originale")⟩
      ⟨some ("monthly"), some 100, none⟩ 100
      (by decide) rfl rfl (by decide) rfl rfl⟩
